import Mathlib

/-!
# Verification of the TelegramReminder reminder subsystem

A shallow embedding of `src/TelegramReminder.py`: the stored reminder
records, the module-level load, `save_reminders`, `parse_dt`,
`schedule_reminder`, the `/add` prefix-splitting loop, `list_handler`
and `delete_handler`, together with theorems about the behaviour of
these operations.

Conventions:
* A Python dict record is a `Reminder` structure whose fields are `none`
  when the corresponding key is absent.
* Absolute instants (UTC datetimes) are integers (seconds since epoch).
* The JSON file contents are modelled as the structured list of records:
  `json.dump` / `json.loads` round-trips these int/str-valued dicts
  faithfully, so serialization is left implicit.
-/

namespace TelegramReminder

/-- The stored `"time"` field of a record seen through
`datetime.fromisoformat`: an ISO string of an aware (offset-carrying)
datetime denoting instant `t`, an ISO string of a naive datetime
(comparing it with an aware `now` raises `TypeError`), or a string
`fromisoformat` rejects with `ValueError`. -/
inductive TimeField
  | awareIso (t : Int)
  | naiveIso (w : Int)
  | malformed
deriving DecidableEq

/-- One reminder record, a JSON object in `reminders.json` (see
`schedule_reminder`, lines 264-271 of `TelegramReminder.py`).  A field is
`none` when the key is absent from the dict. -/
structure Reminder where
  id : Option Int
  chat_id : Option Int
  scheduled_id : Option Int
  time : Option TimeField
  caption : Option String
  user_id : Option Int
deriving DecidableEq

/-- The filter applied by `save_reminders` (line 168): keep only dicts
that contain the keys `"id"`, `"chat_id"` and `"scheduled_id"`. -/
def saveValid (r : Reminder) : Bool :=
  r.id.isSome && r.chat_id.isSome && r.scheduled_id.isSome

/-- The content `save_reminders` writes: the filtered collection
(line 168, `valid_reminders`). -/
def save_filtered (rs : List Reminder) : List Reminder :=
  rs.filter saveValid

/-- The load-time filter (line 143): keep items that are dicts containing
the key `"id"`. -/
def loadValid (r : Reminder) : Bool :=
  r.id.isSome

/-- The collection obtained from loading a file content (lines 141-146). -/
def load_filtered (rs : List Reminder) : List Reminder :=
  rs.filter loadValid

/-- Python `max(xs, default=d)`: the default is used only when the list is
empty (line 163). -/
def pyMax (xs : List Int) (d : Int) : Int :=
  match xs with
  | [] => d
  | x :: rest => max x (pyMax rest x)

/-- The in-process state of the bot: the `reminders` list, the `next_id`
counter, and the current content of the canonical `reminders.json`. -/
structure Store where
  reminders : List Reminder
  nextId : Int
  disk : List Reminder
deriving DecidableEq

/-- The module-level load (lines 138-164): filter the file content and
seed `next_id` with `max([r.get("id", 0) for r in reminders], default=0) + 1`. -/
def loadStore (ds : List Reminder) : Store :=
  { reminders := load_filtered ds
    nextId := pyMax ((load_filtered ds).map fun r => r.id.getD 0) 0 + 1
    disk := ds }

/-- Outcome of the `client.send_message` / `client.send_file` call inside
`schedule_reminder` (lines 249-260): it either returns a message carrying
an id, or raises. -/
inductive SendOutcome
  | ok (msgId : Int)
  | err
deriving DecidableEq

/-- The adjustment of lines 243-247: a `when` not more than
`min_schedule_delay = 10` seconds ahead of `now` is moved to
`now + 10` seconds. -/
def clampWhen (whenParsed now : Int) : Int :=
  if whenParsed ≤ now + 10 then now + 10 else whenParsed

/-- The dict built at lines 264-271: every key present, the time stored as
the ISO string of the (adjusted) UTC instant. -/
def newRecord (s : Store) (chatId userId msgId whenAdj : Int)
    (caption : String) : Reminder :=
  { id := some s.nextId
    chat_id := some chatId
    scheduled_id := some msgId
    time := some (.awareIso whenAdj)
    caption := some caption
    user_id := some userId }

/-- `schedule_reminder` (lines 230-276).  The `when` instant is clamped
(lines 243-247, see `clampWhen`).  If the Telegram call raises, the
handler replies and returns `None` with no state change (lines 257-260).
On success the record is appended, the file is saved, and `next_id` is
incremented (lines 262-276). -/
def schedule_reminder (s : Store) (chatId userId : Int) (whenParsed now : Int)
    (caption : String) (send : SendOutcome) : Option Int × Store :=
  match send with
  | .err => (none, s)
  | .ok msgId =>
      (some s.nextId,
        { reminders :=
            s.reminders ++ [newRecord s chatId userId msgId (clampWhen whenParsed now) caption]
          nextId := s.nextId + 1
          disk := save_filtered
            (s.reminders ++ [newRecord s chatId userId msgId (clampWhen whenParsed now) caption]) })

/-- Result surfaced to the user by `add_handler`. -/
inductive AddOutcome
  | parseFail
  | pastReject
  | sendFail
  | scheduled (rid : Int)
deriving DecidableEq

/-- The tail of `add_handler` after the prefix-splitting loop
(lines 331-341 and 377): a failed parse is reported (line 333), a parsed
instant not strictly after `now` is rejected as "in the past"
(lines 336-340), otherwise `schedule_reminder` runs. -/
def addFlow (s : Store) (parsed : Option (Int × String)) (now chatId userId : Int)
    (send : SendOutcome) : AddOutcome × Store :=
  match parsed with
  | none => (.parseFail, s)
  | some (t, caption) =>
      if t ≤ now then (.pastReject, s)
      else
        match schedule_reminder s chatId userId t now caption send with
        | (none, s') => (.sendFail, s')
        | (some rid, s') => (.scheduled rid, s')

/-- Remove the first record whose `"id"` equals `rid` (the search loop of
`delete_handler`, lines 465-470, followed by `del reminders[reminder_index]`,
line 489). -/
def removeFirstById (rs : List Reminder) (rid : Int) : List Reminder :=
  match rs with
  | [] => []
  | r :: rest => if r.id = some rid then rest else r :: removeFirstById rest rid

/-- `delete_handler` (lines 446-495): if a record with the requested id is
found it is removed from the list and the file is saved (the attempt to
delete the Telegram scheduled message may fail, but removal proceeds
regardless, lines 481-484); otherwise nothing changes. -/
def delete_handler (s : Store) (rid : Int) : Store :=
  if s.reminders.any fun r => decide (r.id = some rid) then
    let rs := removeFirstById s.reminders rid
    { s with reminders := rs, disk := save_filtered rs }
  else s

/-- Outcome of a delivery attempt, as classified by the spec's Delivery
Scheduler (spec section 4.4). -/
inductive DeliveryOutcome
  | success
  | permanentFailure
  | transient
deriving DecidableEq

/-- Modelled from the spec: the Delivery Scheduler of spec section 4.4 is
not part of `src` — delivery of a scheduled reminder is delegated to the
chat service (the `schedule=` argument of `send_message`), so no delivery
loop appears in the repository's source.  Its store effects are taken from
the spec's words: "Success → remove from store", "Permanent failure →
remove from store", "Transient failure → leave record untouched", with the
mutation persisted afterwards as the lifecycle of section 3 requires. -/
def scheduler_effect (s : Store) (rid : Int) (outcome : DeliveryOutcome) : Store :=
  match outcome with
  | .success =>
      let rs := removeFirstById s.reminders rid
      { s with reminders := rs, disk := save_filtered rs }
  | .permanentFailure =>
      let rs := removeFirstById s.reminders rid
      { s with reminders := rs, disk := save_filtered rs }
  | .transient => s

/-- The events that touch the store: an `/add` request (through
`schedule_reminder`), an explicit `/delete` request, a delivery attempt of
a due reminder (spec-modelled, see `scheduler_effect`), and a process
restart (which re-runs the module-level load on the current file). -/
inductive Ev
  | add (chatId userId whenParsed now : Int) (caption : String) (send : SendOutcome)
  | userDelete (rid : Int)
  | deliver (rid : Int) (outcome : DeliveryOutcome)
  | restart
deriving DecidableEq

/-- One event step; the second component is the id returned by a
successful `schedule_reminder`, `none` otherwise. -/
def stepEv (s : Store) : Ev → Store × Option Int
  | .add c u w now cap send =>
      ((schedule_reminder s c u w now cap send).2,
        (schedule_reminder s c u w now cap send).1)
  | .userDelete rid => (delete_handler s rid, none)
  | .deliver rid outcome => (scheduler_effect s rid outcome, none)
  | .restart => (loadStore s.disk, none)

/-- Run a sequence of events, collecting the ids returned by the
successful `/add` requests in order. -/
def runEvs (s : Store) : List Ev → Store × List Int
  | [] => (s, [])
  | ev :: rest =>
      ((runEvs (stepEv s ev).1 rest).1,
        (stepEv s ev).2.toList ++ (runEvs (stepEv s ev).1 rest).2)

/-- An append/remove operation on a loaded store (the subject of the
monotonic-id property): the foreground `/add` and `/delete` requests. -/
inductive StoreOp
  | add (chatId userId whenParsed now : Int) (caption : String) (send : SendOutcome)
  | del (rid : Int)

/-- View a store operation as an event. -/
def opToEv : StoreOp → Ev
  | .add c u w n cap send => .add c u w n cap send
  | .del rid => .userDelete rid

/-- Run a sequence of append/remove operations. -/
def runOps (s : Store) (ops : List StoreOp) : Store × List Int :=
  runEvs s (ops.map opToEv)

/-! ## The time parser `parse_dt` -/

/-- A wall-clock datetime without timezone information (what
`dateutil.parser.parse` returns for text carrying no offset). -/
structure Wall where
  year : Int
  month : Int
  day : Int
  hour : Int
  minute : Int
  second : Int
deriving DecidableEq

/-- The result of `dateutil.parser.parse` on a text it accepts: a naive
wall-clock datetime (`tzinfo is None`), or an aware one, abstracted to the
absolute instant it denotes. -/
inductive DuResult
  | naive (w : Wall)
  | aware (t : Int)
deriving DecidableEq

/-- The configured display timezone (`TZ`, a `zoneinfo.ZoneInfo`), as the
two conversions the code needs: the wall clock an instant shows in this
zone (`astimezone(TZ)`), and the instant a wall clock of this zone denotes
(attaching the zone and converting to UTC). -/
structure Tz where
  toWall : Int → Wall
  toInstant : Wall → Int

/-- A Python exception escaping the happy path of `parse_dt`. -/
inductive PyExn
  | attributeError
deriving DecidableEq

/-- Line 199: `dt_local = TZ.localize(dt_naive)`.  `TZ` is a
`zoneinfo.ZoneInfo`; `zoneinfo` timezone objects have no `localize` method
(that is the pytz API, dropped when the script moved to `zoneinfo`), so
this attribute lookup raises `AttributeError` for every naive parse
result, whatever the timezone and datetime are. -/
def zoneinfoLocalize (tz : Tz) (w : Wall) : Except PyExn Int :=
  .error .attributeError

/-- The body of `parse_dt` (lines 187-219): localize a naive result
(line 199) or convert an aware one to the display zone (line 202); then,
if the local wall clock is exactly midnight and `TIME_RE` found no `H:MM`
substring in the text, replace the time of day with 09:00 (lines 206-210);
finally convert back to UTC (line 213).  `timeMatch` is the result of
`TIME_RE.search(text)`. -/
def parse_dtCore (tz : Tz) (du : DuResult) (timeMatch : Bool) : Except PyExn Int := do
  let instant ← match du with
    | .naive w => zoneinfoLocalize tz w
    | .aware t => Except.ok t
  let wLocal := tz.toWall instant
  if wLocal.hour = 0 ∧ wLocal.minute = 0 ∧ wLocal.second = 0 ∧ timeMatch = false then
    Except.ok (tz.toInstant { wLocal with hour := 9, minute := 0, second := 0 })
  else
    Except.ok instant

/-- `parse_dt` (lines 187-226).  `du` is the `dateutil` outcome on the
text: `none` when `dateutil` raises `ParserError`/`ValueError`, handled at
line 221.  Any other exception — in particular the `AttributeError` raised
at line 199 — is swallowed by the generic handler at lines 224-226, which
also returns `None`. -/
def parse_dt (tz : Tz) (du : Option DuResult) (timeMatch : Bool) : Option Int :=
  match du with
  | none => none
  | some r =>
      match parse_dtCore tz r timeMatch with
      | .ok t => some t
      | .error _ => none

/-! ## The `/add` prefix-splitting loop -/

/-- `" ".join(ts)`. -/
def joinTokens (ts : List String) : String :=
  String.intercalate " " ts

/-- The prefix loop of `add_handler` (lines 317-329) starting at prefix
length `i` with `rem` candidate lengths left: parse the first `i` tokens;
on success stop immediately (`break`, line 329) with the remaining tokens
joined as the caption (line 327); on failure try one more token.  The
caption in the source is `" ".join(tokens[i:]).strip()`; the tokens come
from `tail.split()` (line 317), so they are nonempty and whitespace-free
and the final `.strip()` is the identity on their join — it is therefore
omitted here. -/
def splitAux (p : String → Option Int) (tokens : List String) :
    Nat → Nat → Option (Int × String)
  | _, 0 => none
  | i, rem + 1 =>
      match p (joinTokens (tokens.take i)) with
      | some dt => some (dt, joinTokens (tokens.drop i))
      | none => splitAux p tokens (i + 1) rem

/-- The whole splitting stage of `add_handler` (lines 317-329): try the
prefixes of length 1, 2, …, `len(tokens)` against the parser `p`
(`parse_dt` in the code) and keep the first success. -/
def splitTail (p : String → Option Int) (tokens : List String) :
    Option (Int × String) :=
  splitAux p tokens 1 tokens.length

/-! ## `list_handler` -/

/-- The sort key of line 417: `datetime.fromisoformat(r["time"])`, read
off the abstracted time field (only evaluated on records that already
passed the eligibility filter, which guarantees an aware time). -/
def timeKey (r : Reminder) : Int :=
  match r.time with
  | some (.awareIso t) => t
  | _ => 0

/-- The per-record filter of `list_handler` (lines 404-414): keep a record
iff it is a dict with `"time"` and `"id"` keys whose time parses to an
aware instant strictly greater than `now` (line 409).  A naive stored time
raises `TypeError` on the comparison and a malformed one raises
`ValueError` in `fromisoformat`; both exceptions are caught (lines
411-414) and the record is skipped. -/
def listEligible (now : Int) (r : Reminder) : Bool :=
  match r.time, r.id with
  | some (.awareIso t), some _ => decide (now < t)
  | _, _ => false

/-- `list_handler` (lines 399-417): filter to the future reminders, then
sort by time (`sorted(valid_reminders, key=...)`, a stable sort, modelled
with `List.mergeSort`). -/
def list_handler (now : Int) (rs : List Reminder) : List Reminder :=
  (rs.filter (listEligible now)).mergeSort fun a b => timeKey a ≤ timeKey b

/-! ## `save_reminders` file mechanics -/

/-- The two files `save_reminders` touches: the canonical
`reminders.json` and the temporary `reminders.tmp`
(`REMINDERS_PATH.with_suffix('.tmp')`, line 172).  `none` means the file
does not exist. -/
structure FileState where
  canonical : Option (List Reminder)
  temp : Option (List Reminder)
deriving DecidableEq

/-- The temp-file write of `save_reminders` (lines 172-174): the filtered
collection is written to `reminders.tmp`; the canonical file is not
touched. -/
def writeTempStep (fs : FileState) (rs : List Reminder) : FileState :=
  { fs with temp := some (save_filtered rs) }

/-- The rename of `save_reminders` (line 175): `shutil.move` between two
paths in the same directory is `os.rename`, an atomic replacement — in one
step the canonical file becomes the temp content. -/
def renameStep (fs : FileState) : FileState :=
  { canonical := fs.temp, temp := none }

/-- `save_reminders` (lines 166-184) as its effect on the two files. -/
def save_reminders (fs : FileState) (rs : List Reminder) : FileState :=
  renameStep (writeTempStep fs rs)

/-- `persist()` followed by `load()`: the collection loaded back from the
file content written by `save_reminders`. -/
def persistLoad (rs : List Reminder) : List Reminder :=
  load_filtered (save_filtered rs)

/-! ## Concrete records and stores used by witnesses and counterexamples -/

/-- A record as `schedule_reminder` creates it: all keys present. -/
def demoRec : Reminder :=
  { id := some 1
    chat_id := some 10
    scheduled_id := some 20
    time := some (.awareIso 100)
    caption := some "w"
    user_id := some 5 }

/-- A store holding `demoRec`, with the file in sync. -/
def demoStore : Store :=
  { reminders := [demoRec], nextId := 2, disk := [demoRec] }

/-- A record with an `"id"` key but no `"chat_id"`/`"scheduled_id"` keys:
accepted by the load filter (line 143 only requires `"id"`), dropped by
the save filter (line 168). -/
def incompleteRec : Reminder :=
  { id := some 1
    chat_id := none
    scheduled_id := none
    time := some (.awareIso 100)
    caption := some "x"
    user_id := some 7 }

/-- The empty starting store (no `reminders.json`, `next_id = 1`). -/
def emptyStore : Store :=
  { reminders := [], nextId := 1, disk := [] }

/-! ## Helper lemmas -/

theorem pyMax_ge {xs : List Int} {x : Int} (d : Int) (hx : x ∈ xs) :
    x ≤ pyMax xs d := by
  induction xs generalizing d with
  | nil => cases hx
  | cons a rest ih =>
      rcases List.mem_cons.mp hx with h | h
      · subst h
        exact le_max_left _ _
      · exact le_trans (ih a h) (le_max_right _ _)

theorem pyMax_mem {xs : List Int} (d : Int) (hne2 : xs ≠ []) :
    pyMax xs d ∈ xs := by
  induction xs generalizing d with
  | nil => exact absurd rfl hne2
  | cons a rest ih =>
      cases rest with
      | nil => simp [pyMax]
      | cons b rs =>
          rw [show pyMax (a :: b :: rs) d = max a (pyMax (b :: rs) a) from rfl]
          rcases max_choice a (pyMax (b :: rs) a) with h | h
          · rw [h]
            exact List.mem_cons_self _ _
          · rw [h]
            exact List.mem_cons_of_mem _ (ih a (by simp))

theorem mem_removeFirstById_of_ne {rs : List Reminder} {r : Reminder} {j : Int}
    (hr : r ∈ rs) (hne : r.id ≠ some j) : r ∈ removeFirstById rs j := by
  induction rs with
  | nil => cases hr
  | cons a rest ih =>
      rcases List.mem_cons.mp hr with h | h
      · subst h
        rw [removeFirstById, if_neg hne]
        exact List.mem_cons_self _ _
      · by_cases ha : a.id = some j
        · rw [removeFirstById, if_pos ha]
          exact h
        · rw [removeFirstById, if_neg ha]
          exact List.mem_cons_of_mem _ (ih h)

theorem not_mem_removeFirstById {rs : List Reminder} {r : Reminder} {i : Int}
    (hnd : (rs.map Reminder.id).Nodup) (hr : r ∈ rs) (hid : r.id = some i) :
    r ∉ removeFirstById rs i := by
  induction rs with
  | nil => cases hr
  | cons a rest ih =>
      rw [List.map_cons, List.nodup_cons] at hnd
      by_cases ha : a.id = some i
      · rw [removeFirstById, if_pos ha]
        intro hmem
        have hmap : r.id ∈ rest.map Reminder.id :=
          List.mem_map_of_mem Reminder.id hmem
        rw [hid, ← ha] at hmap
        exact hnd.1 hmap
      · rw [removeFirstById, if_neg ha]
        have hrrest : r ∈ rest := by
          rcases List.mem_cons.mp hr with h | h
          · exact absurd (h ▸ hid) ha
          · exact h
        intro hmem
        rcases List.mem_cons.mp hmem with h | h
        · exact ha (h ▸ hid)
        · exact ih hnd.2 hrrest h

theorem save_filtered_eq_self {rs : List Reminder}
    (h : ∀ r ∈ rs, saveValid r = true) : save_filtered rs = rs :=
  List.filter_eq_self.mpr h

theorem load_filtered_eq_self {rs : List Reminder}
    (h : ∀ r ∈ rs, loadValid r = true) : load_filtered rs = rs :=
  List.filter_eq_self.mpr h

theorem loadValid_of_saveValid {r : Reminder} (h : saveValid r = true) :
    loadValid r = true := by
  unfold saveValid at h
  unfold loadValid
  exact (Bool.and_eq_true_iff.mp (Bool.and_eq_true_iff.mp h).1).1

/-! ## Claim theorems -/

/-- C2: the claim says that for every text accepted by the date parser as
a timezone-naive datetime, `parse_dt` returns (not NONE) the instant
obtained by interpreting it as wall-clock time in the display timezone.
The code cannot do this: line 199 calls `TZ.localize` on a
`zoneinfo.ZoneInfo`, which has no `localize` method, so every naive parse
result raises `AttributeError`, the generic handler at line 224 catches
it, and `parse_dt` returns `None` — for every timezone model, every naive
wall-clock value and either `TIME_RE` outcome. -/
theorem parse_dt_naive_always_none (tz : Tz) (w : Wall) (timeMatch : Bool) :
    parse_dt tz (some (.naive w)) timeMatch = none := rfl

/-- C4: the claim's example "parsing \"25-12-2025\" yields 09:00 local on
that date" fails on the code: `dateutil` returns the naive midnight
datetime for that text, line 199 raises `AttributeError` (no `localize` on
`zoneinfo.ZoneInfo`), and `parse_dt` returns `None` — not the default
09:00 instant the claim requires.  (`TIME_RE` finds no `H:MM` substring in
"25-12-2025", so `timeMatch` is `false`.) -/
theorem parse_dt_default_time_dead (tz : Tz) :
    parse_dt tz (some (.naive ⟨2025, 12, 25, 0, 0, 0⟩)) false = none ∧
    parse_dt tz (some (.naive ⟨2025, 12, 25, 0, 0, 0⟩)) false ≠
      some (tz.toInstant ⟨2025, 12, 25, 9, 0, 0⟩) :=
  ⟨rfl, fun h => Option.noConfusion h⟩

/-- C10: when the Telegram scheduling call raises, `schedule_reminder`
returns `None` and performs no mutation: the reminder list, the persisted
file and the `next_id` counter are all unchanged (the append, save and
increment at lines 262-276 run only after a successful send). -/
theorem schedule_reminder_failure_atomic (s : Store) (c u w now : Int)
    (cap : String) :
    (schedule_reminder s c u w now cap .err).1 = none ∧
    (schedule_reminder s c u w now cap .err).2.reminders = s.reminders ∧
    (schedule_reminder s c u w now cap .err).2.disk = s.disk ∧
    (schedule_reminder s c u w now cap .err).2.nextId = s.nextId :=
  ⟨rfl, rfl, rfl, rfl⟩

/-- C6 counterexample: `save_reminders` does not write the entire
collection.  A record holding only the keys `"id"`, `"time"`, `"caption"`,
`"user_id"` — accepted at load time, which requires only `"id"` — is
dropped by the filter at line 168, so the canonical file ends up with the
empty list instead of the one-record collection that was in memory. -/
theorem save_reminders_drops_incomplete :
    (save_reminders ⟨none, none⟩ [incompleteRec]).canonical = some [] ∧
    some ([] : List Reminder) ≠ some [incompleteRec] := by
  refine ⟨rfl, ?_⟩
  simp

/-- C6 amended: every call writes the filtered collection (the records
having `"id"`, `"chat_id"` and `"scheduled_id"` — the entire collection
whenever all records are complete, as all records created by
`schedule_reminder` are) to the temporary file, leaving the canonical file
untouched, and then atomically renames it over the canonical file; a crash
between the two steps leaves the previous canonical content intact. -/
theorem save_reminders_atomic (fs : FileState) (rs : List Reminder) :
    (writeTempStep fs rs).canonical = fs.canonical ∧
    (save_reminders fs rs).canonical = some (save_filtered rs) ∧
    ((∀ r ∈ rs, saveValid r = true) →
      (save_reminders fs rs).canonical = some rs) := by
  refine ⟨rfl, rfl, fun h => ?_⟩
  rw [show (save_reminders fs rs).canonical = some (save_filtered rs) from rfl,
    save_filtered_eq_self h]

/-- Witness for `save_reminders_atomic`: saving the complete `demoRec`
collection over a previous empty snapshot installs exactly that
collection. -/
theorem save_reminders_atomic_witness :
    (save_reminders ⟨some [], none⟩ [demoRec]).canonical = some [demoRec] :=
  (save_reminders_atomic ⟨some [], none⟩ [demoRec]).2.2 (by decide)

/-- C8 counterexample: persist-then-load is not the identity on every
in-memory collection: a record lacking `"chat_id"`/`"scheduled_id"` is
dropped by the save filter (line 168), so the loaded collection is empty
while the persisted one was not. -/
theorem persistLoad_not_identity :
    persistLoad [incompleteRec] = [] ∧ ([] : List Reminder) ≠ [incompleteRec] := by
  refine ⟨rfl, ?_⟩
  simp

/-- C8 amended: for every in-memory collection whose records all carry the
`"id"`, `"chat_id"` and `"scheduled_id"` keys (as every record built by
`schedule_reminder` does), persist followed by load returns the identical
collection, record for record — in particular ids, times and captions are
preserved. -/
theorem persistLoad_roundtrip (rs : List Reminder)
    (h : ∀ r ∈ rs, saveValid r = true) : persistLoad rs = rs := by
  unfold persistLoad
  rw [save_filtered_eq_self h]
  exact load_filtered_eq_self fun r hr => loadValid_of_saveValid (h r hr)

/-- Witness for `persistLoad_roundtrip` at the one-record collection
`[demoRec]`. -/
theorem persistLoad_roundtrip_witness : persistLoad [demoRec] = [demoRec] :=
  persistLoad_roundtrip [demoRec] (by decide)

/-- C5 counterexample: an add request whose parsed due instant is 5
seconds after now — less than the 10-second minimum lead
(`min_schedule_delay`) — is not rejected: the flow clamps the instant to
now+10 (lines 245-247) and schedules, creating reminder 1, contrary to
the claimed validation failure with no state change. -/
theorem addFlow_short_lead_not_rejected :
    (addFlow emptyStore (some (5, "m")) 0 11 22 (.ok 33)).1 = .scheduled 1 ∧
    (addFlow emptyStore (some (5, "m")) 0 11 22 (.ok 33)).2.reminders ≠ [] := by
  refine ⟨by decide, by decide⟩

/-- C5 amended: the creation path rejects exactly the parsed due instants
that are not strictly after the current time (reply "in the past", no
state change); a parsed instant within the 10-second minimum delay is not
rejected but clamped to now+10 by `schedule_reminder`, so every reminder
the flow stores carries a due instant at least 10 seconds after the
scheduling moment (in particular strictly in the future). -/
theorem addFlow_guard (s : Store) (t now chatId userId : Int) (cap : String)
    (send : SendOutcome) :
    (t ≤ now → addFlow s (some (t, cap)) now chatId userId send = (.pastReject, s)) ∧
    (∀ rid s', addFlow s (some (t, cap)) now chatId userId send = (.scheduled rid, s') →
      ∃ rec, s'.reminders = s.reminders ++ [rec] ∧
        ∃ wv, rec.time = some (.awareIso wv) ∧ now + 10 ≤ wv ∧ now < wv) := by
  constructor
  · intro h
    simp only [addFlow, if_pos h]
  · intro rid s' heq
    by_cases ht : t ≤ now
    · simp only [addFlow, if_pos ht] at heq
      injection heq with h1 h2
      exact AddOutcome.noConfusion h1
    · cases send with
      | err =>
          simp only [addFlow, if_neg ht, schedule_reminder] at heq
          injection heq with h1 h2
          exact AddOutcome.noConfusion h1
      | ok m =>
          simp only [addFlow, if_neg ht, schedule_reminder] at heq
          injection heq with h1 h2
          refine ⟨newRecord s chatId userId m (clampWhen t now) cap, ?_, clampWhen t now, rfl, ?_, ?_⟩
          · rw [← h2]
          · unfold clampWhen
            split <;> omega
          · have h10 : now + 10 ≤ clampWhen t now := by
              unfold clampWhen
              split <;> omega
            omega

/-- Witness for `addFlow_guard`: a due instant equal to now (0) is
rejected with no state change. -/
theorem addFlow_guard_witness :
    addFlow emptyStore (some (0, "c")) 3 1 2 (.ok 9) = (.pastReject, emptyStore) :=
  (addFlow_guard emptyStore 0 3 1 2 "c" (.ok 9)).1 (by decide)

/-! ## C1: the prefix-splitting policy -/

/-- If every prefix length in `[a, i)` fails and length `i` succeeds
(`a ≤ i < a + rem`), the loop started at `a` stops at `i`. -/
theorem splitAux_first (p : String → Option Int) (tokens : List String) :
    ∀ rem a i dt, a ≤ i → i < a + rem →
      (∀ j, a ≤ j → j < i → p (joinTokens (tokens.take j)) = none) →
      p (joinTokens (tokens.take i)) = some dt →
      splitAux p tokens a rem = some (dt, joinTokens (tokens.drop i)) := by
  intro rem
  induction rem with
  | zero =>
      intro a i dt ha hi _ _
      omega
  | succ rem ih =>
      intro a i dt ha hi hfail hok
      by_cases hai : a = i
      · subst hai
        rw [splitAux, hok]
      · have hlt : a < i := lt_of_le_of_ne ha hai
        rw [splitAux, hfail a le_rfl hlt]
        exact ih (a + 1) i dt hlt (by omega) (fun j hj hji => hfail j (by omega) hji) hok

/-- Acceptance profile of `parse_dt` on the whitespace prefixes of the
tail `"14:30 UTC 25-12-2025 buy milk"`, written out as a concrete function
for the counterexample.  With the real parser: `"14:30"` is accepted by
`dateutil` as a naive time, so `parse_dt` dies in `TZ.localize` and yields
`None`; `"14:30 UTC"` and `"14:30 UTC 25-12-2025"` parse as aware
datetimes and succeed (the instants are abbreviated to the stand-in values
2 and 3 — only acceptance and distinctness matter to the split); the
prefixes ending in `"buy"` and `"buy milk"` raise `ParserError`.  -/
def acceptProfile (s : String) : Option Int :=
  if s = "14:30 UTC" then some 2
  else if s = "14:30 UTC 25-12-2025" then some 3
  else none

/-- C1 counterexample: on the tail `"14:30 UTC 25-12-2025 buy milk"` both
the 2-token and the 3-token prefixes are accepted by the parser.  The
claimed longest-prefix policy would keep `"14:30 UTC 25-12-2025"` and
return caption `"buy milk"`; the code's loop `break`s at the first
success (line 329), keeping the 2-token prefix and returning caption
`"25-12-2025 buy milk"`. -/
theorem splitTail_keeps_first_not_longest :
    splitTail acceptProfile ["14:30", "UTC", "25-12-2025", "buy", "milk"] =
      some (2, "25-12-2025 buy milk") ∧
    ("25-12-2025 buy milk" : String) ≠ "buy milk" := by
  refine ⟨by decide, by decide⟩

/-- C1 amended: the splitter keeps the SHORTEST token-prefix accepted by
the time parser — it tries prefixes of increasing length and stops at the
first success, never extending past it; the remaining tokens, joined, become the caption.  (So when two nested prefixes both parse,
the caption keeps everything after the shorter one.) -/
theorem splitTail_first_success (p : String → Option Int)
    (tokens : List String) (i : Nat) (dt : Int) (h1 : 1 ≤ i)
    (h2 : i ≤ tokens.length)
    (hfail : ∀ j, 1 ≤ j → j < i → p (joinTokens (tokens.take j)) = none)
    (hok : p (joinTokens (tokens.take i)) = some dt) :
    splitTail p tokens = some (dt, joinTokens (tokens.drop i)) :=
  splitAux_first p tokens tokens.length 1 i dt h1 (by omega) hfail hok

/-- Witness for `splitTail_first_success` on the counterexample tail: the
1-token prefix fails, the 2-token prefix succeeds, so the split keeps it
and the caption is the joined remainder. -/
theorem splitTail_first_success_witness :
    splitTail acceptProfile ["14:30", "UTC", "25-12-2025", "buy", "milk"] =
      some (2, joinTokens ["25-12-2025", "buy", "milk"]) :=
  splitTail_first_success acceptProfile ["14:30", "UTC", "25-12-2025", "buy", "milk"]
    2 2 (by decide) (by decide)
    (fun j hj hji => by
      have hj1 : j = 1 := by omega
      subst hj1
      decide)
    (by decide)

/-! ## C9: future-only listing -/

/-- C9: a well-formed record (it has an `"id"` key and its stored time
parses to an aware instant `t`) that is in the store appears in the
`/list` result exactly when `t` is strictly in the future of the check
time `now` — in particular a past-due reminder never appears, whether or
not anything has delivered it. -/
theorem list_handler_mem_iff_future (now : Int) (rs : List Reminder)
    (r : Reminder) (t : Int) (ht : r.time = some (.awareIso t))
    (hid : r.id.isSome = true) (hr : r ∈ rs) :
    r ∈ list_handler now rs ↔ now < t := by
  unfold list_handler
  rw [List.mem_mergeSort, List.mem_filter]
  rcases Option.isSome_iff_exists.mp hid with ⟨i, hi⟩
  unfold listEligible
  rw [ht, hi]
  simp [hr]

/-- Witness for `list_handler_mem_iff_future`: `demoRec` is due at 100,
so it is listed at `now = 0`. -/
theorem list_handler_mem_iff_future_witness :
    demoRec ∈ list_handler 0 [demoRec] :=
  (list_handler_mem_iff_future 0 [demoRec] demoRec 100 rfl rfl
    (List.mem_singleton.mpr rfl)).mpr (by decide)

/-! ## C3: removal happens exactly at terminal events -/

/-- The steady-state store invariant: every record is complete (has the
`"id"`, `"chat_id"` and `"scheduled_id"` keys, as every record built by
`schedule_reminder` has), the ids are pairwise distinct, and the file
holds what `save_reminders` last wrote. -/
def StoreInv (s : Store) : Prop :=
  (∀ r ∈ s.reminders, saveValid r = true) ∧
  (s.reminders.map Reminder.id).Nodup ∧
  s.disk = save_filtered s.reminders

instance (s : Store) : Decidable (StoreInv s) := by
  unfold StoreInv
  infer_instance

/-- C3: in a store satisfying the steady-state invariant, a record `r`
with id `i` is removed by an event exactly when that event is one of the
three terminal ones for `r`: an explicit `/delete` of id `i`, a successful
delivery of `i`, or a permanently failed delivery of `i`.  In particular a
transient delivery failure, another record's events, an `/add`, and a
process restart (reloading the persisted file) all leave `r` in the
store. -/
theorem reminder_removed_iff_terminal (s : Store) (hInv : StoreInv s)
    (r : Reminder) (hr : r ∈ s.reminders) (i : Int) (hid : r.id = some i)
    (ev : Ev) :
    r ∉ (stepEv s ev).1.reminders ↔
      (ev = .userDelete i ∨ ev = .deliver i .success ∨
        ev = .deliver i .permanentFailure) := by
  obtain ⟨hval, hnd, hdisk⟩ := hInv
  cases ev with
  | add c u w now cap send =>
      cases send with
      | err => simp [stepEv, schedule_reminder, hr]
      | ok m =>
          simp only [stepEv, schedule_reminder]
          constructor
          · intro hno
            exact absurd (List.mem_append_left _ hr) hno
          · intro h
            rcases h with h | h | h <;> exact Ev.noConfusion h
  | userDelete j =>
      simp only [stepEv]
      unfold delete_handler
      by_cases hfound : s.reminders.any fun a => decide (a.id = some j)
      · rw [if_pos hfound]
        constructor
        · intro hno
          by_cases hji : j = i
          · subst hji
            simp
          · exact absurd (mem_removeFirstById_of_ne hr (hid ▸ fun h => hji (Option.some.inj h).symm)) hno
        · intro h
          rcases h with h | h | h
          · have hji : j = i := by
              injection h
            subst hji
            exact not_mem_removeFirstById hnd hr hid
          · exact Ev.noConfusion h
          · exact Ev.noConfusion h
      · rw [if_neg hfound]
        constructor
        · intro hno
          exact absurd hr hno
        · intro h
          rcases h with h | h | h
          · have hji : j = i := by
              injection h
            subst hji
            refine absurd ?_ hfound
            rw [List.any_eq_true]
            exact ⟨r, hr, by simp [hid]⟩
          · exact Ev.noConfusion h
          · exact Ev.noConfusion h
  | deliver j outcome =>
      simp only [stepEv]
      cases outcome with
      | success =>
          unfold scheduler_effect
          constructor
          · intro hno
            by_cases hji : j = i
            · subst hji
              simp
            · exact absurd (mem_removeFirstById_of_ne hr (hid ▸ fun h => hji (Option.some.inj h).symm)) hno
          · intro h
            rcases h with h | h | h
            · exact Ev.noConfusion h
            · have hji : j = i := by
                injection h
              subst hji
              exact not_mem_removeFirstById hnd hr hid
            · injection h with h1 h2
              exact DeliveryOutcome.noConfusion h2
      | permanentFailure =>
          unfold scheduler_effect
          constructor
          · intro hno
            by_cases hji : j = i
            · subst hji
              simp
            · exact absurd (mem_removeFirstById_of_ne hr (hid ▸ fun h => hji (Option.some.inj h).symm)) hno
          · intro h
            rcases h with h | h | h
            · exact Ev.noConfusion h
            · injection h with h1 h2
              exact DeliveryOutcome.noConfusion h2
            · have hji : j = i := by
                injection h
              subst hji
              exact not_mem_removeFirstById hnd hr hid
      | transient =>
          unfold scheduler_effect
          constructor
          · intro hno
            exact absurd hr hno
          · intro h
            rcases h with h | h | h
            · exact Ev.noConfusion h
            · injection h with h1 h2
              exact DeliveryOutcome.noConfusion h2
            · injection h with h1 h2
              exact DeliveryOutcome.noConfusion h2
  | restart =>
      simp only [stepEv]
      have hre : (loadStore s.disk).reminders = s.reminders := by
        simp only [loadStore]
        rw [hdisk, save_filtered_eq_self hval]
        exact load_filtered_eq_self fun a ha => loadValid_of_saveValid (hval a ha)
      rw [hre]
      constructor
      · intro hno
        exact absurd hr hno
      · intro h
        rcases h with h | h | h <;> exact Ev.noConfusion h

/-- Witness for `reminder_removed_iff_terminal`: in the demo store, the
explicit `/delete` of id 1 — a terminal event — removes `demoRec`. -/
theorem reminder_removed_iff_terminal_witness :
    demoRec ∉ (stepEv demoStore (.userDelete 1)).1.reminders :=
  (reminder_removed_iff_terminal demoStore (by decide) demoRec
    (List.mem_singleton.mpr rfl) 1 rfl (.userDelete 1)).mpr (Or.inl rfl)

/-! ## C7: monotonic ids -/

theorem stepEv_op_nextId_mono (s : Store) (op : StoreOp) :
    s.nextId ≤ (stepEv s (opToEv op)).1.nextId := by
  cases op with
  | add c u w n cap send =>
      cases send with
      | err => simp [opToEv, stepEv, schedule_reminder]
      | ok m =>
          simp only [opToEv, stepEv, schedule_reminder]
          omega
  | del rid =>
      simp only [opToEv, stepEv]
      unfold delete_handler
      split <;> simp

theorem stepEv_op_ret (s : Store) (op : StoreOp) (j : Int)
    (h : (stepEv s (opToEv op)).2 = some j) :
    j = s.nextId ∧ (stepEv s (opToEv op)).1.nextId = s.nextId + 1 := by
  cases op with
  | add c u w n cap send =>
      cases send with
      | err => simp [opToEv, stepEv, schedule_reminder] at h
      | ok m =>
          simp only [opToEv, stepEv, schedule_reminder, Option.some.injEq] at h
          refine ⟨h.symm, ?_⟩
          simp [opToEv, stepEv, schedule_reminder]
  | del rid => simp [opToEv, stepEv] at h

theorem runOps_ids_lb (ops : List StoreOp) :
    ∀ s, ∀ j ∈ (runOps s ops).2, s.nextId ≤ j := by
  induction ops with
  | nil =>
      intro s j hj
      simp [runOps, runEvs] at hj
  | cons op rest ih =>
      intro s j hj
      simp only [runOps, List.map_cons, runEvs, List.mem_append] at hj
      rcases hj with hj | hj
      · rw [Option.mem_toList, Option.mem_def] at hj
        exact le_of_eq (stepEv_op_ret s op j hj).1.symm
      · exact le_trans (stepEv_op_nextId_mono s op) (ih (stepEv s (opToEv op)).1 j hj)

theorem runOps_ids_sorted (ops : List StoreOp) :
    ∀ s, List.Sorted (fun a b : Int => a < b) (runOps s ops).2 := by
  induction ops with
  | nil =>
      intro s
      simp [runOps, runEvs]
  | cons op rest ih =>
      intro s
      simp only [runOps, List.map_cons, runEvs]
      cases hsnd : (stepEv s (opToEv op)).2 with
      | none =>
          simpa using ih (stepEv s (opToEv op)).1
      | some j =>
          simp only [Option.toList_some, List.singleton_append]
          rw [List.sorted_cons]
          constructor
          · intro b hb
            have hb' := runOps_ids_lb rest (stepEv s (opToEv op)).1 b hb
            have hret := stepEv_op_ret s op j hsnd
            omega
          · exact ih (stepEv s (opToEv op)).1

theorem loadStore_id_lt (ds : List Reminder) :
    ∀ r ∈ (loadStore ds).reminders, r.id.getD 0 < (loadStore ds).nextId := by
  intro r hr
  simp only [loadStore] at hr ⊢
  have hmem : r.id.getD 0 ∈ (load_filtered ds).map fun a => a.id.getD 0 :=
    List.mem_map_of_mem _ hr
  have hle := pyMax_ge 0 hmem
  omega

/-- C7: starting from the loaded store, over any sequence of `/add` and
`/delete` operations the ids returned by the successful appends are
strictly increasing and never collide with an id already loaded (so no id
is ever reused within the session, even after deletes); and the load-time
counter is one greater than the maximum id among the loaded records,
defaulting to 1 when the store is empty. -/
theorem append_ids_monotonic (ds : List Reminder) (ops : List StoreOp) :
    List.Sorted (fun a b : Int => a < b) (runOps (loadStore ds) ops).2 ∧
    (∀ j ∈ (runOps (loadStore ds) ops).2,
      ∀ r ∈ (loadStore ds).reminders, r.id ≠ some j) ∧
    ((loadStore ds).reminders = [] → (loadStore ds).nextId = 1) ∧
    (∀ r ∈ (loadStore ds).reminders, r.id.getD 0 < (loadStore ds).nextId) ∧
    ((loadStore ds).reminders ≠ [] →
      ∃ r ∈ (loadStore ds).reminders, r.id.getD 0 + 1 = (loadStore ds).nextId) := by
  refine ⟨runOps_ids_sorted ops (loadStore ds), ?_, ?_, loadStore_id_lt ds, ?_⟩
  · intro j hj r hr heq
    have h1 := runOps_ids_lb ops (loadStore ds) j hj
    have h2 := loadStore_id_lt ds r hr
    rw [heq] at h2
    simp only [Option.getD_some] at h2
    omega
  · intro h
    simp only [loadStore] at h ⊢
    rw [h]
    simp [pyMax]
  · intro h
    simp only [loadStore] at h ⊢
    have hmapne : ((load_filtered ds).map fun a => a.id.getD 0) ≠ [] := by
      simpa using h
    have hmem := pyMax_mem 0 hmapne
    rcases List.mem_map.mp hmem with ⟨r, hr, hrv⟩
    exact ⟨r, hr, by omega⟩

/-- Witness for `append_ids_monotonic`: the store loaded from `[demoRec]`
is nonempty, and its counter is one greater than the maximum loaded
id (1 + 1 = 2). -/
theorem append_ids_monotonic_witness :
    ∃ r ∈ (loadStore [demoRec]).reminders,
      r.id.getD 0 + 1 = (loadStore [demoRec]).nextId :=
  (append_ids_monotonic [demoRec] []).2.2.2.2 (by decide)

end TelegramReminder
